import Mathlib

/-!
Verification development for the portfolio accounting engine of the
crypto-tracker repository.

The Python sources embedded here (shallowly, with exact rational arithmetic in
place of 64-bit floats) are:

* `src/crypto_tracker/services/metrics.py`:
  `calculate_cost_basis_fifo`, `calculate_cost_basis_lifo`,
  `calculate_cost_basis_average`, `compute_portfolio_metrics`;
* `src/crypto_tracker/legacy_crypto_tracker.py`:
  `compute_realized_pnl_per_trade`.

Trade records are Python dicts whose entries may be absent; they are modelled
as a structure of `Option`-valued fields where `none` stands for an absent key.
Statements that in Python raise (`KeyError` from `t["asset"]` in
`compute_portfolio_metrics`, `ZeroDivisionError` from the unguarded division in
the average-cost SELL branch, `KeyError` from `t["date"]` in
`compute_realized_pnl_per_trade`) are modelled by returning `Except.error`;
all other arithmetic in the sources is guarded and total.

Python's `sorted`/`list.sort` is a stable sort; it is modelled by a stable
insertion sort with the same (code-point lexicographic) string order Python
uses for the `date` keys.
-/

/-- Code-point comparison of characters, as Python compares strings. -/
def charLt (a b : Char) : Bool := a.toNat < b.toNat

/-- Lexicographic code-point order on lists of characters. -/
def charListLe : List Char → List Char → Bool
  | [], _ => true
  | _ :: _, [] => false
  | a :: as, b :: bs => if charLt a b then true else if charLt b a then false else charListLe as bs

/-- Python's `<=` on strings (lexicographic by code point). -/
def strLe (a b : String) : Bool := charListLe a.data b.data

/-- Insert into a sorted list, after any elements comparing `le` to the new one:
together with `insertionSortB` this is a stable sort, as Python's `sorted` is. -/
def orderedInsertB (le : α → α → Bool) (a : α) : List α → List α
  | [] => [a]
  | b :: l => if le a b then a :: b :: l else b :: orderedInsertB le a l

/-- Stable insertion sort, modelling Python's `sorted(l, key=...)`. -/
def insertionSortB (le : α → α → Bool) : List α → List α
  | [] => []
  | b :: l => orderedInsertB le b (insertionSortB le l)

/-- One trade record (a Python dict): `none` models an absent key.
Numeric fields are exact rationals in place of Python floats. -/
structure Trade where
  id : Option String := none
  date : Option String := none
  asset : Option String := none
  type : Option String := none
  price : Option ℚ := none
  quantity : Option ℚ := none
  fee : Option ℚ := none
  total_value : Option ℚ := none

/-- The sort key used throughout the sources: `t.get("date", "")`. -/
def sortKey (t : Trade) : String := t.date.getD ""

/-- `sorted(trades, key=lambda t: t.get("date", ""))`. -/
def sortTrades (l : List Trade) : List Trade :=
  insertionSortB (fun a b => strLe (sortKey a) (sortKey b)) l

/-- A lot of the FIFO/LIFO ledgers: `{"quantity": .., "cost_per_unit": ..,
"trade_id": trade.get("id"), "date": trade.get("date", "")}`. -/
structure Lot where
  quantity : ℚ
  cost_per_unit : ℚ
  trade_id : Option String
  date : String

/-- The FIFO `while sell_qty > 0 and lots:` loop of `calculate_cost_basis_fifo`,
consuming lots from the front; returns the new total cost and remaining lots. -/
def consumeFifo : ℚ → List Lot → ℚ → ℚ × List Lot
  | _, [], cost => (cost, [])
  | sellQty, lot :: rest, cost =>
    if sellQty ≤ 0 then (cost, lot :: rest)
    else if lot.quantity ≤ sellQty then
      consumeFifo (sellQty - lot.quantity) rest (cost - lot.quantity * lot.cost_per_unit)
    else
      (cost - sellQty * lot.cost_per_unit, { lot with quantity := lot.quantity - sellQty } :: rest)

/-- The LIFO loop of `calculate_cost_basis_lifo`: identical, but consuming from
the back of the lot list (`lots[-1]` / `lots.pop()`). -/
def consumeLifo (sellQty : ℚ) (lots : List Lot) (cost : ℚ) : ℚ × List Lot :=
  let r := consumeFifo sellQty lots.reverse cost
  (r.1, r.2.reverse)

/-- One iteration of the trade-replay loop shared verbatim by
`calculate_cost_basis_fifo` and `calculate_cost_basis_lifo` (they differ only in
the lot-consumption direction, passed here as `consume`).
State is `(total_cost, units_held, lots)`. -/
def lotLedgerStep (consume : ℚ → List Lot → ℚ → ℚ × List Lot)
    (st : ℚ × ℚ × List Lot) (t : Trade) : ℚ × ℚ × List Lot :=
  let (cost, units, lots) := st
  if t.type = some "BUY" ∨ t.type = some "Transfer" then
    let qty := t.quantity.getD 0
    let total_val := t.total_value.getD 0 + t.fee.getD 0
    let cost_per_unit := if qty ≠ 0 then total_val / qty else 0
    if 0 < cost_per_unit ∧ 0 < qty then
      (cost + total_val, units + qty,
        lots ++ [{ quantity := qty, cost_per_unit := cost_per_unit,
                   trade_id := t.id, date := t.date.getD "" }])
    else (cost, units, lots)
  else if t.type = some "SELL" then
    let sell_qty := t.quantity.getD 0
    let r := consume sell_qty lots cost
    (r.1, units - sell_qty, r.2)
  else (cost, units, lots)

/-- `calculate_cost_basis_fifo(trades, asset)`: filter to the asset, sort by
date, replay; returns `(total_cost_basis, units_held, remaining_lots)`. -/
def calculate_cost_basis_fifo (trades : List Trade) (asset : String) : ℚ × ℚ × List Lot :=
  (sortTrades (trades.filter (fun t => decide (t.asset = some asset)))).foldl
    (lotLedgerStep consumeFifo) (0, 0, [])

/-- `calculate_cost_basis_lifo(trades, asset)`. -/
def calculate_cost_basis_lifo (trades : List Trade) (asset : String) : ℚ × ℚ × List Lot :=
  (sortTrades (trades.filter (fun t => decide (t.asset = some asset)))).foldl
    (lotLedgerStep consumeLifo) (0, 0, [])

/-- One iteration of the replay loop of `calculate_cost_basis_average`.
State is `(total_cost, units_held, raised)`: the third component records whether
Python would have raised `ZeroDivisionError` in
`avg = total_cost / (units_held + sell_qty)` (the one unguarded division in the
sources); past that point the Lean value continues with `x / 0 = 0`. -/
def avgStep (st : ℚ × ℚ × Bool) (t : Trade) : ℚ × ℚ × Bool :=
  let (cost, units, raised) := st
  if t.type = some "BUY" ∨ t.type = some "Transfer" then
    (cost + (t.total_value.getD 0 + t.fee.getD 0), units + t.quantity.getD 0, raised)
  else if t.type = some "SELL" then
    let sell_qty := t.quantity.getD 0
    let units_held := units - sell_qty
    if 0 < units_held then
      (units_held * (cost / (units_held + sell_qty)), units_held,
        raised || decide (units_held + sell_qty = 0))
    else (0, units_held, raised)
  else (cost, units, raised)

/-- `calculate_cost_basis_average(trades, asset)`: returns
`(total_cost_basis, units_held, lots)` with the single synthetic average lot. -/
def calculate_cost_basis_average (trades : List Trade) (asset : String) : ℚ × ℚ × List Lot :=
  let r := (sortTrades (trades.filter (fun t => decide (t.asset = some asset)))).foldl
    avgStep (0, 0, false)
  let total_cost := r.1
  let units_held := r.2.1
  let lots : List Lot :=
    if 0 < units_held then
      [{ quantity := units_held, cost_per_unit := total_cost / units_held,
         trade_id := some "average", date := "average" }]
    else []
  (total_cost, units_held, lots)

/-- Whether the Python `calculate_cost_basis_average` run raises
`ZeroDivisionError` on this input. -/
def avgRaises (trades : List Trade) (asset : String) : Bool :=
  ((sortTrades (trades.filter (fun t => decide (t.asset = some asset)))).foldl
    avgStep (0, 0, false)).2.2

/-- Per-asset entry of the snapshot, fields as in `per_asset[asset] = {...}`. -/
structure PerAssetMetrics where
  units_held : ℚ
  holding_qty : ℚ
  price : Option ℚ
  current_value : ℚ
  cost_basis : ℚ
  unrealized_pnl : ℚ
  realized_pnl : ℚ
  lifetime_pnl : ℚ
  roi_pct : ℚ

/-- The aggregate snapshot returned by `compute_portfolio_metrics`.
`per_asset` is the Python dict as an (insertion-ordered) association list. -/
structure PortfolioMetrics where
  per_asset : List (String × PerAssetMetrics)
  usd_balance : ℚ
  total_value : ℚ
  total_external_cash : ℚ
  total_cost_basis_assets : ℚ
  realized_pnl : ℚ
  unrealized_pnl : ℚ
  total_pnl : ℚ
  roi_pct : ℚ
  roi_on_cost_pct : Option ℚ

/-- The exceptions the embedded Python functions can raise. -/
inductive PyErr
  | keyError
  | zeroDivisionError
deriving DecidableEq

/-- `sum((t.get("total_value") or 0) + (t.get("fee") or 0) for t in asset_trades
if t.get("type") in ("BUY", "Transfer"))`. -/
def buyCostAsset (asset_trades : List Trade) : ℚ :=
  ((asset_trades.filter
      (fun t => decide (t.type = some "BUY" ∨ t.type = some "Transfer"))).map
    (fun t => t.total_value.getD 0 + t.fee.getD 0)).sum

/-- `sum((t.get("total_value") or 0) - (t.get("fee") or 0) for t in asset_trades
if t.get("type") == "SELL")`. -/
def sellProceedsAsset (asset_trades : List Trade) : ℚ :=
  ((asset_trades.filter (fun t => decide (t.type = some "SELL"))).map
    (fun t => t.total_value.getD 0 - t.fee.getD 0)).sum

/-- `sum(t.get("quantity", 0) for t in asset_trades if t.get("type") == "Holding")`. -/
def holdingQtySum (asset_trades : List Trade) : ℚ :=
  ((asset_trades.filter (fun t => decide (t.type = some "Holding"))).map
    (fun t => t.quantity.getD 0)).sum

/-- `method = cost_basis_method if cost_basis_method in ("fifo", "lifo", "average")
else "average"`. -/
def resolvedMethod (m : String) : String :=
  if m = "fifo" ∨ m = "lifo" ∨ m = "average" then m else "average"

/-- The per-asset method dispatch of `compute_portfolio_metrics` (lines 195-200);
`method` is already resolved, so the trailing branch is `average`. -/
def costBasisByMethod (method : String) (trades : List Trade) (asset : String) :
    ℚ × ℚ × List Lot :=
  if method = "fifo" then calculate_cost_basis_fifo trades asset
  else if method = "lifo" then calculate_cost_basis_lifo trades asset
  else calculate_cost_basis_average trades asset

/-- The price lookup returned `None`, or a value that is not positive: the cases
in which `compute_portfolio_metrics` falls back to cost-basis valuation. -/
def priceInvalid : Option ℚ → Prop
  | none => True
  | some p => p ≤ 0

/-- The per-asset body of the `for asset in crypto_assets:` loop of
`compute_portfolio_metrics` (cost basis, realized, holding quantity, price
fallback, unrealized, ROI), producing one `per_asset` entry. -/
def mkPerAsset (method : String) (get_current_price : String → Option ℚ)
    (asset_trades : List Trade) (asset : String) : PerAssetMetrics :=
  let cb := costBasisByMethod method asset_trades asset
  let cost_basis := cb.1
  let units_held := cb.2.1
  let buy_cost_asset := buyCostAsset asset_trades
  let sell_proceeds_asset := sellProceedsAsset asset_trades
  let realized_pnl_asset := sell_proceeds_asset - (buy_cost_asset - cost_basis)
  let holding_qty := holdingQtySum asset_trades
  let total_units_for_value := units_held + holding_qty
  let price := get_current_price asset
  let current_value :=
    match price with
    | none => cost_basis
    | some p => if p ≤ 0 then cost_basis else total_units_for_value * p
  let unrealized := current_value - cost_basis
  let roi_pct := if 0 < cost_basis then unrealized / cost_basis * 100 else 0
  { units_held := units_held, holding_qty := holding_qty, price := price,
    current_value := current_value, cost_basis := cost_basis,
    unrealized_pnl := unrealized, realized_pnl := realized_pnl_asset,
    lifetime_pnl := realized_pnl_asset + unrealized, roi_pct := roi_pct }

/-- Accumulate a list of distinct strings in first-occurrence order
(the contents of a Python `set` built by one traversal). -/
def insertUniq (xs : List String) (x : String) : List String :=
  if decide (x ∈ xs) then xs else xs ++ [x]

/-- The distinct elements of `l`, in first-occurrence order. -/
def distinctList (l : List String) : List String := l.foldl insertUniq []

/-- `sorted({t["asset"] for t in trades_sorted if t.get("asset") != "USD"})`,
assuming every asset key present (otherwise Python raises, see
`computePortfolioMetrics`). -/
def cryptoAssets (trades : List Trade) : List String :=
  insertionSortB strLe
    (distinctList ((trades.filterMap (fun t => t.asset)).filter
      (fun a => decide (a ≠ "USD"))))

/-- One iteration of the USD cash-balance replay (lines 243-251):
skip USD rows and non-BUY/SELL rows; `total_val` falls back to
`price * quantity` when `total_value` is absent or zero (Python `or`). -/
def usdBalanceStep (bal : ℚ) (t : Trade) : ℚ :=
  if t.asset = some "USD" ∨ ¬(t.type = some "BUY" ∨ t.type = some "SELL") then bal
  else
    let total_val :=
      if t.total_value.getD 0 = 0 then t.price.getD 0 * t.quantity.getD 0
      else t.total_value.getD 0
    let fee := t.fee.getD 0
    if t.type = some "BUY" then bal - (total_val + fee) else bal + (total_val - fee)

/-- `compute_portfolio_metrics(trades, cost_basis_method, get_current_price)`.

`Except.error .keyError` models the `KeyError` Python raises at
`{t["asset"] for t in trades_sorted if t.get("asset") != "USD"}` when a trade
has no asset key; `Except.error .zeroDivisionError` models the
`ZeroDivisionError` reachable through the average-cost branch. -/
def computePortfolioMetrics (trades : List Trade) (cost_basis_method : String)
    (get_current_price : String → Option ℚ) : Except PyErr PortfolioMetrics :=
  if trades.isEmpty then
    .ok { per_asset := [], usd_balance := 0, total_value := 0, total_external_cash := 0,
          total_cost_basis_assets := 0, realized_pnl := 0, unrealized_pnl := 0,
          total_pnl := 0, roi_pct := 0, roi_on_cost_pct := none }
  else
    let trades_sorted := sortTrades trades
    if trades_sorted.any (fun t => t.asset.isNone) then .error .keyError
    else
      let usd_deposits := ((trades_sorted.filter
          (fun t => decide (t.asset = some "USD" ∧ t.type = some "Deposit"))).map
        (fun t => t.quantity.getD 0)).sum
      let usd_withdrawals := ((trades_sorted.filter
          (fun t => decide (t.asset = some "USD" ∧ t.type = some "Withdrawal"))).map
        (fun t => t.quantity.getD 0)).sum
      let total_external_cash := usd_deposits - usd_withdrawals
      let method := resolvedMethod cost_basis_method
      let assets := cryptoAssets trades_sorted
      if method = "average" ∧ assets.any
          (fun a => avgRaises (trades_sorted.filter (fun t => decide (t.asset = some a))) a) then
        .error .zeroDivisionError
      else
        let per_asset := assets.filterMap (fun a =>
          let asset_trades := trades_sorted.filter (fun t => decide (t.asset = some a))
          if asset_trades.isEmpty then none
          else some (a, mkPerAsset method get_current_price asset_trades a))
        let total_cost_basis_assets := (per_asset.map (fun p => p.2.cost_basis)).sum
        let total_unrealized_pnl := (per_asset.map (fun p => p.2.unrealized_pnl)).sum
        let total_value_assets := (per_asset.map (fun p => p.2.current_value)).sum
        let usd_balance := trades_sorted.foldl usdBalanceStep total_external_cash
        let total_value := total_value_assets + usd_balance
        let total_buy_cost := ((trades_sorted.filter (fun t =>
            decide ((t.type = some "BUY" ∨ t.type = some "Transfer") ∧ t.asset ≠ some "USD"))).map
          (fun t => t.total_value.getD 0 + t.fee.getD 0)).sum
        let total_sell_proceeds := ((trades_sorted.filter (fun t =>
            decide (t.type = some "SELL" ∧ t.asset ≠ some "USD"))).map
          (fun t => t.total_value.getD 0 - t.fee.getD 0)).sum
        let realized_pnl := total_sell_proceeds - (total_buy_cost - total_cost_basis_assets)
        let total_pnl := realized_pnl + total_unrealized_pnl
        let roi_pct := if 0 < total_external_cash
          then total_pnl / total_external_cash * 100 else 0
        let roi_on_cost_pct := if 0 < total_cost_basis_assets
          then some (total_pnl / total_cost_basis_assets * 100) else none
        .ok { per_asset := per_asset, usd_balance := usd_balance, total_value := total_value,
              total_external_cash := total_external_cash,
              total_cost_basis_assets := total_cost_basis_assets,
              realized_pnl := realized_pnl, unrealized_pnl := total_unrealized_pnl,
              total_pnl := total_pnl, roi_pct := roi_pct, roi_on_cost_pct := roi_on_cost_pct }

/-- Lookup in a Python dict modelled as an association list:
`d.get(k, 0)` for the running `units`/`cost_basis` dicts of
`compute_realized_pnl_per_trade`. -/
def dictGet : List (String × ℚ) → String → ℚ
  | [], _ => 0
  | p :: rest, k => if p.1 = k then p.2 else dictGet rest k

/-- `d[k] = v` on a Python dict modelled as an association list: update in
place when the key exists, append otherwise (insertion order preserved). -/
def dictSet (m : List (String × ℚ)) (k : String) (v : ℚ) : List (String × ℚ) :=
  if m.any (fun p => decide (p.1 = k)) then
    m.map (fun p => if p.1 = k then (k, v) else p)
  else m ++ [(k, v)]

/-- One iteration of the replay loop of `compute_realized_pnl_per_trade`
(legacy_crypto_tracker.py lines 229-262). State is
`(units, cost_basis, result)`, three Python dicts. -/
def pnlStep (st : List (String × ℚ) × List (String × ℚ) × List (String × ℚ))
    (t : Trade) : List (String × ℚ) × List (String × ℚ) × List (String × ℚ) :=
  let (units, cost_basis, result) := st
  let asset := t.asset.getD ""
  let tid := t.id.getD ""
  let ttype := t.type.getD ""
  if asset = "USD" ∨ ¬(ttype = "BUY" ∨ ttype = "SELL" ∨ ttype = "Transfer") then
    if ttype = "SELL" ∧ asset ≠ "" ∧ tid ≠ "" then (units, cost_basis, dictSet result tid 0)
    else (units, cost_basis, result)
  else if ttype = "BUY" ∨ ttype = "Transfer" then
    let qty := t.quantity.getD 0
    let cost := t.total_value.getD 0 + t.fee.getD 0
    (dictSet units asset (dictGet units asset + qty),
      dictSet cost_basis asset (dictGet cost_basis asset + cost), result)
  else
    let qty := t.quantity.getD 0
    let price := t.price.getD 0
    let fee := t.fee.getD 0
    let u := dictGet units asset
    let c := dictGet cost_basis asset
    if u ≤ 0 then (units, cost_basis, dictSet result tid 0)
    else
      let sold := min qty u
      let cost_per_unit := c / u
      let cost_of_sold := cost_per_unit * sold
      (dictSet units asset (u - sold), dictSet cost_basis asset (c - cost_of_sold),
        dictSet result tid (price * sold - cost_of_sold - fee))

/-- `compute_realized_pnl_per_trade(trades, method)` from
`legacy_crypto_tracker.py`. The `method` argument is accepted and ignored, as
in the source ("here we do average only"). `sorted(trades, key=lambda t:
t["date"])` raises `KeyError` when a trade has no date key, modelled by
`Except.error .keyError`. Returns the `result` dict mapping trade ids of SELL
rows to their realized P&L. -/
def compute_realized_pnl_per_trade (trades : List Trade) (method : String) :
    Except PyErr (List (String × ℚ)) :=
  if trades.any (fun t => t.date.isNone) then .error .keyError
  else .ok ((sortTrades trades).foldl pnlStep ([], [], [])).2.2

/-- Sum of `quantity * cost_per_unit` over a lot list. -/
def lotsSum (lots : List Lot) : ℚ := (lots.map (fun l => l.quantity * l.cost_per_unit)).sum

/-- Every lot has positive quantity and positive unit cost. -/
def lotsPos (lots : List Lot) : Prop := ∀ l ∈ lots, 0 < l.quantity ∧ 0 < l.cost_per_unit

/-- The trade's numeric fields, where present, are nonnegative (always true of
values the data model allows: quantities, notionals and fees are `>= 0`). -/
def tradeFieldsNonneg (t : Trade) : Prop :=
  0 ≤ t.quantity.getD 0 ∧ 0 ≤ t.total_value.getD 0 ∧ 0 ≤ t.fee.getD 0

/-- A BUY trade record with every field present. -/
def simpleBuy (a idb db : String) (qb pb tvb fb : ℚ) : Trade :=
  { id := some idb, date := some db, asset := some a, type := some "BUY",
    price := some pb, quantity := some qb, fee := some fb, total_value := some tvb }

/-- A SELL trade record with every field present. -/
def simpleSell (a ids ds : String) (qs ps tvs fs : ℚ) : Trade :=
  { id := some ids, date := some ds, asset := some a, type := some "SELL",
    price := some ps, quantity := some qs, fee := some fs, total_value := some tvs }

/-- A history of exactly one BUY followed by one SELL of the same asset. -/
def twoTradeHist (a idb db ids ds : String) (qb pb tvb fb qs ps tvs fs : ℚ) : List Trade :=
  [simpleBuy a idb db qb pb tvb fb, simpleSell a ids ds qs ps tvs fs]

/-- Scenario 3 of the spec: a 1000 USD deposit followed by a BTC buy. -/
def c1_trades : List Trade :=
  [{ date := some "2024-01-01", asset := some "USD", type := some "Deposit",
     quantity := some 1000 },
   { id := some "t2", date := some "2024-01-02", asset := some "BTC", type := some "BUY",
     price := some 50000, quantity := some (1/100), fee := some 5, total_value := some 500 }]

/-- Price lookup for scenario 3: BTC at 60000. -/
def c1_lookup : String → Option ℚ := fun a => if a = "BTC" then some 60000 else none

/-- The BTC entry `compute_portfolio_metrics` produces for scenario 3. -/
def c1_btc : PerAssetMetrics :=
  { units_held := 1/100, holding_qty := 0, price := some 60000, current_value := 600,
    cost_basis := 505, unrealized_pnl := 95, realized_pnl := 0, lifetime_pnl := 95,
    roi_pct := 1900/101 }

/-- The full snapshot `compute_portfolio_metrics` produces for scenario 3. -/
def c1_metrics : PortfolioMetrics :=
  { per_asset := [("BTC", c1_btc)], usd_balance := 495, total_value := 1095,
    total_external_cash := 1000, total_cost_basis_assets := 505, realized_pnl := 0,
    unrealized_pnl := 95, total_pnl := 95, roi_pct := 19/2,
    roi_on_cost_pct := some (1900/101) }

/-- A BUY whose stored `total_value` is negative: no aggregator-boundary clamp
exists in the code, so the reported cost basis goes negative. -/
def c2bad_trades : List Trade :=
  [{ id := some "b1", date := some "2024-01-01", asset := some "X", type := some "BUY",
     quantity := some 1, fee := some 0, total_value := some (-100) }]

/-- The per-asset entry the aggregator reports for `c2bad_trades` under the
average method: a negative cost basis, unclamped. -/
def c2bad_asset : PerAssetMetrics :=
  { units_held := 1, holding_qty := 0, price := none, current_value := -100,
    cost_basis := -100, unrealized_pnl := 0, realized_pnl := 0, lifetime_pnl := 0,
    roi_pct := 0 }

/-- The snapshot the aggregator reports for `c2bad_trades` (average method,
no price available). -/
def c2bad_metrics : PortfolioMetrics :=
  { per_asset := [("X", c2bad_asset)], usd_balance := 100, total_value := 0,
    total_external_cash := 0, total_cost_basis_assets := -100, realized_pnl := 0,
    unrealized_pnl := 0, total_pnl := 0, roi_pct := 0, roi_on_cost_pct := none }

/-- A trade record with no asset key: `compute_portfolio_metrics` hits
`t["asset"]` on it and raises `KeyError`. -/
def c3bad_trades : List Trade :=
  [{ id := some "b1", date := some "2024-01-01", type := some "BUY",
     quantity := some 1, total_value := some 100 }]

/-- Witness input for the amended never-raises claim: the asset key is present,
every other optional field may be absent. -/
def c3w_trades : List Trade :=
  [{ asset := some "X", type := some "BUY" },
   { asset := some "X", type := some "SELL", quantity := some 2 },
   { asset := some "USD", type := some "Deposit" }]

/-- One BUY at zero cost followed by a smaller SELL: the FIFO/LIFO ledgers push
no lot (the `cost_per_unit > 0` guard fails) while the average ledger still
counts the bought units, so the methods disagree on `units_held`. -/
def c4bad_trades : List Trade :=
  twoTradeHist "X" "b1" "2024-01-01" "s1" "2024-01-02" 1 0 0 0 (1/2) 0 0 0

/-- One BUY at zero cost followed by a SELL of the full quantity: FIFO tracked
no units for the buy, so its `units_held` ends at `-1`, not `0`. -/
def c5bad_trades : List Trade :=
  twoTradeHist "X" "b1" "2024-01-01" "s1" "2024-01-02" 1 0 0 0 1 0 0 0

/-- A SELL denominated in USD, with an id: `compute_realized_pnl_per_trade`
gives it a `0.0` entry, so USD trades are not all absent from the result. -/
def c8bad_trades : List Trade :=
  [{ id := some "t1", date := some "2024-01-01", asset := some "USD",
     type := some "SELL", quantity := some 5 }]

/-- Witness input for the amended claim: a single non-USD SELL. -/
def c8w_trades : List Trade :=
  [{ id := some "s1", date := some "2024-01-01", asset := some "X",
     type := some "SELL", quantity := some 1 }]

/-- Witness input for the fallback-valuation claim: one BUY of an asset whose
price lookup will return `None`. -/
def c7w_trades : List Trade :=
  [{ id := some "b1", date := some "2024-01-01", asset := some "X", type := some "BUY",
     quantity := some 1, fee := some 0, total_value := some 10 }]

/-- The per-asset entry for `c7w_trades` with no price available: valued at
cost basis. -/
def c7w_asset : PerAssetMetrics :=
  { units_held := 1, holding_qty := 0, price := none, current_value := 10,
    cost_basis := 10, unrealized_pnl := 0, realized_pnl := 0, lifetime_pnl := 0,
    roi_pct := 0 }

/-- The snapshot for `c7w_trades` with no price available. -/
def c7w_metrics : PortfolioMetrics :=
  { per_asset := [("X", c7w_asset)], usd_balance := -10, total_value := 0,
    total_external_cash := 0, total_cost_basis_assets := 10, realized_pnl := 0,
    unrealized_pnl := 0, total_pnl := 0, roi_pct := 0, roi_on_cost_pct := some 0 }

lemma mem_orderedInsertB {α : Type*} {le : α → α → Bool} {a x : α} {l : List α} :
    x ∈ orderedInsertB le a l ↔ x = a ∨ x ∈ l := by
  induction l with
  | nil => simp [orderedInsertB]
  | cons b t ih =>
    cases h : le a b <;>
      simp only [orderedInsertB, h, Bool.false_eq_true, if_false, if_true,
        List.mem_cons, ih] <;>
      tauto

lemma mem_insertionSortB {α : Type*} {le : α → α → Bool} {x : α} {l : List α} :
    x ∈ insertionSortB le l ↔ x ∈ l := by
  induction l with
  | nil => simp [insertionSortB]
  | cons b t ih => simp [insertionSortB, mem_orderedInsertB, ih]

lemma mem_sortTrades {t : Trade} {l : List Trade} : t ∈ sortTrades l ↔ t ∈ l :=
  mem_insertionSortB

lemma foldl_inv {σ α : Type*} {P : σ → Prop} {Q : α → Prop} {f : σ → α → σ}
    (hstep : ∀ s a, P s → Q a → P (f s a)) :
    ∀ (l : List α), (∀ a ∈ l, Q a) → ∀ s, P s → P (l.foldl f s) := by
  intro l
  induction l with
  | nil => intro _ s hs; exact hs
  | cons a t ih =>
    intro hQ s hs
    exact ih (fun x hx => hQ x (List.mem_cons_of_mem _ hx))
      (f s a) (hstep s a hs (hQ a (List.mem_cons_self _ _)))

lemma lotsSum_nonneg {lots : List Lot} (h : lotsPos lots) : 0 ≤ lotsSum lots := by
  apply List.sum_nonneg
  intro x hx
  rw [List.mem_map] at hx
  obtain ⟨l, hl, rfl⟩ := hx
  obtain ⟨h1, h2⟩ := h l hl
  exact le_of_lt (mul_pos h1 h2)

lemma consumeFifo_spec :
    ∀ (lots : List Lot) (sq cost : ℚ), cost = lotsSum lots → lotsPos lots →
      (consumeFifo sq lots cost).1 = lotsSum (consumeFifo sq lots cost).2 ∧
        lotsPos (consumeFifo sq lots cost).2 := by
  intro lots
  induction lots with
  | nil =>
    intro sq cost h _
    simp only [consumeFifo]
    exact ⟨h, fun l hl => absurd hl (List.not_mem_nil l)⟩
  | cons lot rest ih =>
    intro sq cost h hpos
    by_cases h1 : sq ≤ 0
    · simp only [consumeFifo, if_pos h1]
      exact ⟨h, hpos⟩
    · by_cases h2 : lot.quantity ≤ sq
      · simp only [consumeFifo, if_neg h1, if_pos h2]
        apply ih
        · have : lotsSum (lot :: rest) = lot.quantity * lot.cost_per_unit + lotsSum rest := by
            simp [lotsSum]
          rw [h, this]; ring
        · exact fun l hl => hpos l (List.mem_cons_of_mem _ hl)
      · simp only [consumeFifo, if_neg h1, if_neg h2]
        constructor
        · have : lotsSum (lot :: rest) = lot.quantity * lot.cost_per_unit + lotsSum rest := by
            simp [lotsSum]
          rw [h, this]
          simp [lotsSum]
          ring
        · intro l hl
          rcases List.mem_cons.mp hl with rfl | hl
          · have hp := hpos lot (List.mem_cons_self _ _)
            refine ⟨?_, hp.2⟩
            simp only []
            push_neg at h2
            linarith [hp.1]
          · exact hpos l (List.mem_cons_of_mem _ hl)

lemma lotsSum_reverse (lots : List Lot) : lotsSum lots.reverse = lotsSum lots := by
  simp [lotsSum, List.map_reverse, List.sum_reverse]

lemma lotsPos_reverse {lots : List Lot} : lotsPos lots.reverse ↔ lotsPos lots := by
  constructor <;> intro h l hl
  · exact h l (List.mem_reverse.mpr hl)
  · exact h l (List.mem_reverse.mp hl)

lemma consumeLifo_spec (lots : List Lot) (sq cost : ℚ) (h : cost = lotsSum lots)
    (hpos : lotsPos lots) :
    (consumeLifo sq lots cost).1 = lotsSum (consumeLifo sq lots cost).2 ∧
      lotsPos (consumeLifo sq lots cost).2 := by
  have := consumeFifo_spec lots.reverse sq cost (by rw [h, lotsSum_reverse])
    (lotsPos_reverse.mpr hpos)
  simp only [consumeLifo]
  exact ⟨by rw [this.1, lotsSum_reverse], lotsPos_reverse.mpr this.2⟩

lemma lotLedgerStep_inv {consume : ℚ → List Lot → ℚ → ℚ × List Lot}
    (hcons : ∀ (lots : List Lot) (sq cost : ℚ), cost = lotsSum lots → lotsPos lots →
      (consume sq lots cost).1 = lotsSum (consume sq lots cost).2 ∧
        lotsPos (consume sq lots cost).2)
    (st : ℚ × ℚ × List Lot) (t : Trade)
    (h : st.1 = lotsSum st.2.2 ∧ lotsPos st.2.2) :
    (lotLedgerStep consume st t).1 = lotsSum (lotLedgerStep consume st t).2.2 ∧
      lotsPos (lotLedgerStep consume st t).2.2 := by
  obtain ⟨cost, units, lots⟩ := st
  obtain ⟨hsum, hpos⟩ := h
  simp only at hsum hpos
  by_cases hb : t.type = some "BUY" ∨ t.type = some "Transfer"
  · simp only [lotLedgerStep, if_pos hb]
    by_cases hg : 0 < (if t.quantity.getD 0 ≠ 0
        then (t.total_value.getD 0 + t.fee.getD 0) / t.quantity.getD 0 else 0) ∧
        0 < t.quantity.getD 0
    · simp only [if_pos hg]
      obtain ⟨hcpu, hq⟩ := hg
      have hqne : t.quantity.getD 0 ≠ 0 := ne_of_gt hq
      rw [if_pos hqne] at hcpu
      constructor
      · simp only [lotsSum, List.map_append, List.sum_append, List.map_cons,
          List.map_nil, List.sum_cons, List.sum_nil]
        rw [hsum, if_pos hqne]
        simp only [lotsSum]
        field_simp
      · intro l hl
        rcases List.mem_append.mp hl with hl | hl
        · exact hpos l hl
        · rcases List.mem_singleton.mp hl with rfl
          exact ⟨hq, by simpa [if_pos hqne] using hcpu⟩
    · simp only [if_neg hg]
      exact ⟨hsum, hpos⟩
  · simp only [lotLedgerStep, if_neg hb]
    by_cases hs : t.type = some "SELL"
    · simp only [if_pos hs]
      exact (hcons lots (t.quantity.getD 0) cost hsum hpos).imp id id
    · simp only [if_neg hs]
      exact ⟨hsum, hpos⟩

lemma fifo_lot_invariant (trades : List Trade) (asset : String) :
    (calculate_cost_basis_fifo trades asset).1 =
        lotsSum (calculate_cost_basis_fifo trades asset).2.2 ∧
      lotsPos (calculate_cost_basis_fifo trades asset).2.2 := by
  unfold calculate_cost_basis_fifo
  exact foldl_inv (Q := fun _ => True)
    (fun s a hP _ => lotLedgerStep_inv consumeFifo_spec s a hP)
    _ (fun _ _ => trivial) _
    ⟨by simp [lotsSum], fun l hl => absurd hl (List.not_mem_nil l)⟩

lemma lifo_lot_invariant (trades : List Trade) (asset : String) :
    (calculate_cost_basis_lifo trades asset).1 =
        lotsSum (calculate_cost_basis_lifo trades asset).2.2 ∧
      lotsPos (calculate_cost_basis_lifo trades asset).2.2 := by
  unfold calculate_cost_basis_lifo
  exact foldl_inv (Q := fun _ => True)
    (fun s a hP _ => lotLedgerStep_inv consumeLifo_spec s a hP)
    _ (fun _ _ => trivial) _
    ⟨by simp [lotsSum], fun l hl => absurd hl (List.not_mem_nil l)⟩

lemma fifo_cost_nonneg (trades : List Trade) (asset : String) :
    0 ≤ (calculate_cost_basis_fifo trades asset).1 := by
  obtain ⟨h1, h2⟩ := fifo_lot_invariant trades asset
  rw [h1]; exact lotsSum_nonneg h2

lemma lifo_cost_nonneg (trades : List Trade) (asset : String) :
    0 ≤ (calculate_cost_basis_lifo trades asset).1 := by
  obtain ⟨h1, h2⟩ := lifo_lot_invariant trades asset
  rw [h1]; exact lotsSum_nonneg h2

lemma avgStep_nonneg {st : ℚ × ℚ × Bool} {t : Trade}
    (hq : 0 ≤ t.quantity.getD 0) (htv : 0 ≤ t.total_value.getD 0)
    (hfee : 0 ≤ t.fee.getD 0) (h : 0 ≤ st.1) : 0 ≤ (avgStep st t).1 := by
  obtain ⟨cost, units, raised⟩ := st
  simp only at h
  by_cases hb : t.type = some "BUY" ∨ t.type = some "Transfer"
  · simp only [avgStep, if_pos hb]
    linarith
  · simp only [avgStep, if_neg hb]
    by_cases hs : t.type = some "SELL"
    · simp only [if_pos hs]
      by_cases hu : 0 < units - t.quantity.getD 0
      · simp only [if_pos hu]
        have hden : 0 < units - t.quantity.getD 0 + t.quantity.getD 0 := by linarith
        have := div_nonneg h (le_of_lt hden)
        exact mul_nonneg (le_of_lt hu) this
      · simp only [if_neg hu]
        exact le_refl 0
    · simp only [if_neg hs]
      exact h

lemma avg_cost_nonneg (trades : List Trade) (asset : String)
    (h : ∀ t ∈ trades, tradeFieldsNonneg t) :
    0 ≤ (calculate_cost_basis_average trades asset).1 := by
  unfold calculate_cost_basis_average
  simp only
  exact foldl_inv (P := fun st : ℚ × ℚ × Bool => 0 ≤ st.1) (Q := tradeFieldsNonneg)
    (fun s a hP hQ => avgStep_nonneg hQ.1 hQ.2.1 hQ.2.2 hP)
    _ (fun a ha => h a (List.mem_filter.mp (mem_sortTrades.mp ha)).1)
    _ (le_refl 0)

lemma avgStep_noRaise {st : ℚ × ℚ × Bool} {t : Trade}
    (hq : 0 ≤ t.quantity.getD 0) (h : st.2.2 = false) : (avgStep st t).2.2 = false := by
  obtain ⟨cost, units, raised⟩ := st
  simp only at h
  by_cases hb : t.type = some "BUY" ∨ t.type = some "Transfer"
  · simp only [avgStep, if_pos hb]
    exact h
  · simp only [avgStep, if_neg hb]
    by_cases hs : t.type = some "SELL"
    · simp only [if_pos hs]
      by_cases hu : 0 < units - t.quantity.getD 0
      · simp only [if_pos hu, h, Bool.false_or]
        have huz : units ≠ 0 := by
          have : 0 < units := by linarith
          exact ne_of_gt this
        simp [huz]
      · simp only [if_neg hu]
        exact h
    · simp only [if_neg hs]
      exact h

lemma avgRaises_false (trades : List Trade) (asset : String)
    (h : ∀ t ∈ trades, 0 ≤ t.quantity.getD 0) : avgRaises trades asset = false := by
  unfold avgRaises
  exact foldl_inv (P := fun st : ℚ × ℚ × Bool => st.2.2 = false)
    (Q := fun t => 0 ≤ t.quantity.getD 0)
    (fun s a hP hQ => avgStep_noRaise hQ hP)
    _ (fun a ha => h a (List.mem_filter.mp (mem_sortTrades.mp ha)).1)
    _ rfl

lemma compute_ok_perAsset {trades : List Trade} {m : String} {lk : String → Option ℚ}
    {M : PortfolioMetrics} (h : computePortfolioMetrics trades m lk = .ok M) :
    ∀ p ∈ M.per_asset,
      p.2 = mkPerAsset (resolvedMethod m) lk
        ((sortTrades trades).filter (fun t => decide (t.asset = some p.1))) p.1 := by
  simp only [computePortfolioMetrics] at h
  by_cases h1 : trades.isEmpty = true
  · rw [if_pos h1, Except.ok.injEq] at h
    subst h
    intro p hp
    simp at hp
  · rw [if_neg h1] at h
    by_cases h2 : ((sortTrades trades).any fun t => t.asset.isNone) = true
    · rw [if_pos h2] at h
      cases h
    · rw [if_neg h2] at h
      by_cases h3 : resolvedMethod m = "average" ∧
          ((cryptoAssets (sortTrades trades)).any fun a =>
            avgRaises (List.filter (fun t => decide (t.asset = some a)) (sortTrades trades)) a) = true
      · rw [if_pos h3] at h
        cases h
      · rw [if_neg h3, Except.ok.injEq] at h
        subst h
        intro p hp
        simp only [List.mem_filterMap] at hp
        obtain ⟨a, ha, hfa⟩ := hp
        by_cases he : (List.filter (fun t => decide (t.asset = some a)) (sortTrades trades)).isEmpty = true
        · rw [if_pos he] at hfa
          cases hfa
        · rw [if_neg he, Option.some.injEq] at hfa
          subst hfa
          rfl

lemma compute_ok_total_cb {trades : List Trade} {m : String} {lk : String → Option ℚ}
    {M : PortfolioMetrics} (h : computePortfolioMetrics trades m lk = .ok M) :
    M.total_cost_basis_assets = (M.per_asset.map (fun p => p.2.cost_basis)).sum := by
  simp only [computePortfolioMetrics] at h
  by_cases h1 : trades.isEmpty = true
  · rw [if_pos h1, Except.ok.injEq] at h
    subst h
    simp
  · rw [if_neg h1] at h
    by_cases h2 : ((sortTrades trades).any fun t => t.asset.isNone) = true
    · rw [if_pos h2] at h
      cases h
    · rw [if_neg h2] at h
      by_cases h3 : resolvedMethod m = "average" ∧
          ((cryptoAssets (sortTrades trades)).any fun a =>
            avgRaises (List.filter (fun t => decide (t.asset = some a)) (sortTrades trades)) a) = true
      · rw [if_pos h3] at h
        cases h
      · rw [if_neg h3, Except.ok.injEq] at h
        subst h
        rfl

lemma compute_ok_indep {trades : List Trade} {m : String} {lk : String → Option ℚ}
    (lk2 : String → Option ℚ)
    (h : ∃ M, computePortfolioMetrics trades m lk = .ok M) :
    ∃ M2, computePortfolioMetrics trades m lk2 = .ok M2 := by
  obtain ⟨M, hM⟩ := h
  simp only [computePortfolioMetrics] at hM ⊢
  by_cases h1 : trades.isEmpty = true
  · rw [if_pos h1]
    exact ⟨_, rfl⟩
  · rw [if_neg h1] at hM ⊢
    by_cases h2 : ((sortTrades trades).any fun t => t.asset.isNone) = true
    · rw [if_pos h2] at hM
      cases hM
    · rw [if_neg h2] at hM ⊢
      by_cases h3 : resolvedMethod m = "average" ∧
          ((cryptoAssets (sortTrades trades)).any fun a =>
            avgRaises (List.filter (fun t => decide (t.asset = some a)) (sortTrades trades)) a) = true
      · rw [if_pos h3] at hM
        cases hM
      · rw [if_neg h3]
        exact ⟨_, rfl⟩

lemma mkPerAsset_fallback (method : String) (lk : String → Option ℚ)
    (ats : List Trade) (a : String) (hp : priceInvalid (lk a)) :
    (mkPerAsset method lk ats a).current_value = (mkPerAsset method lk ats a).cost_basis ∧
      (mkPerAsset method lk ats a).unrealized_pnl = 0 := by
  simp only [mkPerAsset]
  cases hl : lk a with
  | none => simp [hl]
  | some p =>
    rw [hl] at hp
    simp only [priceInvalid] at hp
    simp [hl, hp]

lemma resolvedMethod_idem (m : String) : resolvedMethod (resolvedMethod m) = resolvedMethod m := by
  unfold resolvedMethod
  by_cases h : m = "fifo" ∨ m = "lifo" ∨ m = "average"
  · rw [if_pos h, if_pos h]
  · rw [if_neg h]
    simp

lemma resolvedMethod_cases (m : String) :
    resolvedMethod m = "fifo" ∨ resolvedMethod m = "lifo" ∨ resolvedMethod m = "average" := by
  unfold resolvedMethod
  by_cases h : m = "fifo" ∨ m = "lifo" ∨ m = "average"
  · rw [if_pos h]
    exact h
  · rw [if_neg h]
    right; right; rfl

lemma compute_resolve (trades : List Trade) (lk : String → Option ℚ) (m : String) :
    computePortfolioMetrics trades m lk = computePortfolioMetrics trades (resolvedMethod m) lk := by
  simp only [computePortfolioMetrics, resolvedMethod_idem]

/-- C6: `compute_portfolio_metrics([], m, price_lookup)` returns the all-zero
snapshot — zero totals, zero ROI, `roi_on_cost_pct = None` and an empty
`per_asset` map — for every cost-basis method string and every price lookup. -/
theorem C6_zero_trades_identity : ∀ (m : String) (lk : String → Option ℚ),
    computePortfolioMetrics [] m lk =
      .ok { per_asset := [], usd_balance := 0, total_value := 0, total_external_cash := 0,
            total_cost_basis_assets := 0, realized_pnl := 0, unrealized_pnl := 0,
            total_pnl := 0, roi_pct := 0, roi_on_cost_pct := none } := by
  intro m lk
  rfl

/-- C3 counterexample: on a trade list whose single record has no asset entry,
`compute_portfolio_metrics` raises `KeyError` (from `t["asset"]` in the
crypto-asset set comprehension) instead of returning a snapshot, for any
method and any price lookup reaching that point. -/
theorem C3_counterexample :
    computePortfolioMetrics c3bad_trades "average" (fun _ => none) = .error .keyError := by
  rfl

/-- C8 counterexample: a SELL denominated in USD does receive an entry in the
map returned by `compute_realized_pnl_per_trade` (value `0.0`, keyed by its
id), so it is false that no trade with asset `"USD"` has a key in the result. -/
theorem C8_counterexample :
    compute_realized_pnl_per_trade c8bad_trades "average" = .ok [("t1", 0)] ∧
      c8bad_trades.map (fun t => t.asset) = [some "USD"] ∧
      c8bad_trades.map (fun t => t.type) = [some "SELL"] ∧
      c8bad_trades.map (fun t => t.id) = [some "t1"] :=
  ⟨rfl, rfl, rfl, rfl⟩

/-- C2 counterexample: a BUY stored with a negative `total_value` drives the
average-method cost basis negative, and `compute_portfolio_metrics` reports it
as-is — there is no clamp to `0` at the aggregator boundary. -/
theorem C2_counterexample :
    computePortfolioMetrics c2bad_trades "average" (fun _ => none) = .ok c2bad_metrics ∧
      c2bad_metrics.per_asset = [("X", c2bad_asset)] ∧
      c2bad_asset.cost_basis < 0 := by
  refine ⟨?_, rfl, by norm_num [c2bad_asset]⟩
  norm_num +decide [computePortfolioMetrics, c2bad_trades, c2bad_metrics, c2bad_asset,
    sortTrades, insertionSortB, orderedInsertB, sortKey, strLe, charListLe, charLt,
    cryptoAssets, distinctList, insertUniq, resolvedMethod, avgRaises, avgStep,
    mkPerAsset, costBasisByMethod, calculate_cost_basis_average,
    buyCostAsset, sellProceedsAsset, holdingQtySum, usdBalanceStep,
    List.filterMap_cons, List.filterMap_nil]

/-- C4 counterexample: for a BUY at zero cost (`total_value = 0, fee = 0`)
followed by a smaller SELL, FIFO/LIFO and Average do not return identical
`units_held`: the FIFO/LIFO `cost_per_unit > 0` guard drops the zero-cost lot,
so they report `-1/2`, while Average reports `1/2`. -/
theorem C4_counterexample :
    (calculate_cost_basis_fifo c4bad_trades "X").2.1 = -(1/2) ∧
      (calculate_cost_basis_lifo c4bad_trades "X").2.1 = -(1/2) ∧
      (calculate_cost_basis_average c4bad_trades "X").2.1 = 1/2 ∧
      (calculate_cost_basis_fifo c4bad_trades "X").2.1 ≠
        (calculate_cost_basis_average c4bad_trades "X").2.1 := by
  norm_num +decide [calculate_cost_basis_fifo, calculate_cost_basis_lifo,
    calculate_cost_basis_average, lotLedgerStep, consumeFifo, consumeLifo, avgStep,
    sortTrades, insertionSortB, orderedInsertB, sortKey, strLe, charListLe, charLt,
    c4bad_trades, twoTradeHist, simpleBuy, simpleSell]

/-- C5 counterexample: after `BUY(q1=1)` at zero cost then `SELL(q1=1)` with no
fees, FIFO and LIFO return `units_held = -1` (the zero-cost buy tracked no
units), not `0`; only Average returns `0`. -/
theorem C5_counterexample :
    (calculate_cost_basis_fifo c5bad_trades "X").2.1 = -1 ∧
      (calculate_cost_basis_lifo c5bad_trades "X").2.1 = -1 ∧
      (calculate_cost_basis_average c5bad_trades "X").2.1 = 0 ∧
      (calculate_cost_basis_fifo c5bad_trades "X").2.1 ≠ 0 := by
  norm_num +decide [calculate_cost_basis_fifo, calculate_cost_basis_lifo,
    calculate_cost_basis_average, lotLedgerStep, consumeFifo, consumeLifo, avgStep,
    sortTrades, insertionSortB, orderedInsertB, sortKey, strLe, charListLe, charLt,
    c5bad_trades, twoTradeHist, simpleBuy, simpleSell]

/-- C1: for `[Deposit USD 1000 @t1, BUY BTC qty=0.01 price=50000 total_value=500
fee=5 @t2]` with `price_lookup(BTC)=60000`, `compute_portfolio_metrics` (under
any cost-basis method string) returns `total_external_cash=1000`,
`usd_balance=495`, BTC `current_value=600`, `cost_basis=505`,
`unrealized_pnl=95`, `total_value=1095`, `total_pnl=95`, `roi_pct=9.5`. -/
theorem C1_scenario3 (m : String) :
    computePortfolioMetrics c1_trades m c1_lookup = .ok c1_metrics ∧
      c1_metrics.total_external_cash = 1000 ∧ c1_metrics.usd_balance = 495 ∧
      c1_metrics.per_asset = [("BTC", c1_btc)] ∧ c1_btc.current_value = 600 ∧
      c1_btc.cost_basis = 505 ∧ c1_btc.unrealized_pnl = 95 ∧
      c1_metrics.total_value = 1095 ∧ c1_metrics.total_pnl = 95 ∧
      c1_metrics.roi_pct = 19/2 := by
  refine ⟨?_, rfl, rfl, rfl, rfl, rfl, rfl, rfl, rfl, rfl⟩
  rw [compute_resolve]
  rcases resolvedMethod_cases m with h | h | h <;> rw [h] <;>
    norm_num +decide [computePortfolioMetrics, c1_trades, c1_lookup, c1_metrics, c1_btc,
      sortTrades, insertionSortB, orderedInsertB, sortKey, strLe, charListLe, charLt,
      cryptoAssets, distinctList, insertUniq, resolvedMethod, avgRaises, avgStep,
      mkPerAsset, costBasisByMethod, calculate_cost_basis_average,
      calculate_cost_basis_fifo, calculate_cost_basis_lifo, lotLedgerStep,
      consumeFifo, consumeLifo, buyCostAsset, sellProceedsAsset, holdingQtySum,
      usdBalanceStep, List.filterMap_cons, List.filterMap_nil]

lemma c7w_eval :
    computePortfolioMetrics c7w_trades "fifo" (fun _ => none) = .ok c7w_metrics := by
  norm_num +decide [computePortfolioMetrics, c7w_trades, c7w_metrics, c7w_asset,
    sortTrades, insertionSortB, orderedInsertB, sortKey, strLe, charListLe, charLt,
    cryptoAssets, distinctList, insertUniq, resolvedMethod, avgRaises, avgStep,
    mkPerAsset, costBasisByMethod, calculate_cost_basis_average,
    calculate_cost_basis_fifo, calculate_cost_basis_lifo, lotLedgerStep,
    consumeFifo, consumeLifo, buyCostAsset, sellProceedsAsset, holdingQtySum,
    usdBalanceStep, List.filterMap_cons, List.filterMap_nil]

/-- C7: whenever `compute_portfolio_metrics` returns a snapshot and the price
lookup for one of its assets is `None` or not positive, that asset is valued at
its own cost basis (`current_value = cost_basis`, `unrealized_pnl = 0`); and the
missing price never causes an exception or error value: the run succeeds under
any other price lookup as well. -/
theorem C7_price_fallback (trades : List Trade) (m : String)
    (lk lk2 : String → Option ℚ) (M : PortfolioMetrics) (a : String)
    (am : PerAssetMetrics)
    (hok : computePortfolioMetrics trades m lk = .ok M)
    (hmem : (a, am) ∈ M.per_asset)
    (hp : priceInvalid (lk a)) :
    am.current_value = am.cost_basis ∧ am.unrealized_pnl = 0 ∧
      (computePortfolioMetrics trades m lk2).isOk = true := by
  have h := compute_ok_perAsset hok (a, am) hmem
  simp only at h
  obtain ⟨M2, h2⟩ := compute_ok_indep lk2 ⟨M, hok⟩
  rw [h]
  exact ⟨(mkPerAsset_fallback _ lk _ a hp).1, (mkPerAsset_fallback _ lk _ a hp).2,
    by rw [h2]; rfl⟩

/-- C7 witness: on the concrete one-BUY history with no price available, the
asset's entry is valued at its cost basis and the computation also succeeds
under a different lookup. -/
theorem C7_witness :
    c7w_asset.current_value = c7w_asset.cost_basis ∧ c7w_asset.unrealized_pnl = 0 ∧
      (computePortfolioMetrics c7w_trades "fifo" (fun _ => some 1)).isOk = true :=
  C7_price_fallback c7w_trades "fifo" (fun _ => none) (fun _ => some 1) c7w_metrics
    "X" c7w_asset c7w_eval (by simp [c7w_metrics]) trivial

/-- C10: for FIFO and LIFO, after replaying any trade list for any asset (in
exact arithmetic) the returned `total_cost_basis` equals the sum over the
returned lots of `quantity * cost_per_unit`; in particular it is never
negative, even when sells exceed the tracked lot inventory. -/
theorem C10_lot_inventory_invariant (trades : List Trade) (asset : String) :
    ((calculate_cost_basis_fifo trades asset).1 =
        lotsSum (calculate_cost_basis_fifo trades asset).2.2 ∧
      0 ≤ (calculate_cost_basis_fifo trades asset).1) ∧
    ((calculate_cost_basis_lifo trades asset).1 =
        lotsSum (calculate_cost_basis_lifo trades asset).2.2 ∧
      0 ≤ (calculate_cost_basis_lifo trades asset).1) :=
  ⟨⟨(fifo_lot_invariant trades asset).1, fifo_cost_nonneg trades asset⟩,
    ⟨(lifo_lot_invariant trades asset).1, lifo_cost_nonneg trades asset⟩⟩

lemma costBasisByMethod_nonneg (method : String) (l : List Trade) (a : String)
    (hf : ∀ t ∈ l, tradeFieldsNonneg t) : 0 ≤ (costBasisByMethod method l a).1 := by
  unfold costBasisByMethod
  split_ifs with h1 h2
  · exact fifo_cost_nonneg l a
  · exact lifo_cost_nonneg l a
  · exact avg_cost_nonneg l a hf

/-- C2 amended: with the data model's field signs (quantity, total_value and
fee nonnegative where present) every per-asset `cost_basis` reported by
`compute_portfolio_metrics` — and hence `total_cost_basis_assets` — is
nonnegative, in exact arithmetic, for every method and price lookup. (No
clamping of a negative total to `0` is performed at the aggregator boundary;
see the counterexample.) -/
theorem C2_amended (trades : List Trade) (m : String) (lk : String → Option ℚ)
    (M : PortfolioMetrics) (hf : ∀ t ∈ trades, tradeFieldsNonneg t)
    (hok : computePortfolioMetrics trades m lk = .ok M) :
    (∀ p ∈ M.per_asset, 0 ≤ p.2.cost_basis) ∧ 0 ≤ M.total_cost_basis_assets := by
  have hper : ∀ p ∈ M.per_asset, 0 ≤ p.2.cost_basis := by
    intro p hp
    rw [compute_ok_perAsset hok p hp]
    have hrw : (mkPerAsset (resolvedMethod m) lk
        ((sortTrades trades).filter (fun t => decide (t.asset = some p.1))) p.1).cost_basis =
        (costBasisByMethod (resolvedMethod m)
          ((sortTrades trades).filter (fun t => decide (t.asset = some p.1))) p.1).1 := rfl
    rw [hrw]
    refine costBasisByMethod_nonneg _ _ _ ?_
    intro t ht
    exact hf t (mem_sortTrades.mp (List.mem_filter.mp ht).1)
  refine ⟨hper, ?_⟩
  rw [compute_ok_total_cb hok]
  apply List.sum_nonneg
  intro x hx
  rw [List.mem_map] at hx
  obtain ⟨p, hp, rfl⟩ := hx
  exact hper p hp

/-- C2 witness: the amended claim applied at the concrete one-BUY history. -/
theorem C2_witness : 0 ≤ c7w_asset.cost_basis ∧ 0 ≤ c7w_metrics.total_cost_basis_assets :=
  ⟨(C2_amended c7w_trades "fifo" (fun _ => none) c7w_metrics
      (by norm_num [c7w_trades, tradeFieldsNonneg]) c7w_eval).1
      ("X", c7w_asset) (by simp [c7w_metrics]),
    (C2_amended c7w_trades "fifo" (fun _ => none) c7w_metrics
      (by norm_num [c7w_trades, tradeFieldsNonneg]) c7w_eval).2⟩

/-- C3 amended: `compute_portfolio_metrics` never raises and always returns a
snapshot provided every record has an asset entry (and quantities, where
present, are nonnegative, as the data model requires); all other fields —
date, price, quantity, total_value, fee, id — may be absent and default to
`0`/`None`. With a record missing its asset entry the code raises `KeyError`
(see the counterexample). -/
theorem C3_amended (trades : List Trade) (m : String) (lk : String → Option ℚ)
    (hasset : ∀ t ∈ trades, t.asset ≠ none)
    (hq : ∀ t ∈ trades, 0 ≤ t.quantity.getD 0) :
    (computePortfolioMetrics trades m lk).isOk = true := by
  simp only [computePortfolioMetrics]
  by_cases h1 : trades.isEmpty = true
  · rw [if_pos h1]
    rfl
  · rw [if_neg h1]
    have h2 : ((sortTrades trades).any fun t => t.asset.isNone) = false := by
      rw [List.any_eq_false]
      intro t ht
      have hne := hasset t (mem_sortTrades.mp ht)
      cases ha : t.asset with
      | none => exact absurd ha hne
      | some v => simp [ha]
    rw [h2]
    simp only [Bool.false_eq_true, if_false]
    have h3 : ¬(resolvedMethod m = "average" ∧
        ((cryptoAssets (sortTrades trades)).any fun a =>
          avgRaises (List.filter (fun t => decide (t.asset = some a)) (sortTrades trades)) a) = true) := by
      rintro ⟨-, hany⟩
      rw [List.any_eq_true] at hany
      obtain ⟨a, ha, hr⟩ := hany
      have hfalse : avgRaises
          (List.filter (fun t => decide (t.asset = some a)) (sortTrades trades)) a = false :=
        avgRaises_false _ a
          (fun t ht => hq t (mem_sortTrades.mp (List.mem_filter.mp ht).1))
      rw [hfalse] at hr
      cases hr
    rw [if_neg h3]
    rfl

/-- C3 witness: the amended claim at a concrete list whose records have asset
entries but are missing date, price, quantity, fee, total_value and id. -/
theorem C3_witness : (computePortfolioMetrics c3w_trades "average" (fun _ => none)).isOk = true :=
  C3_amended c3w_trades "average" (fun _ => none)
    (by norm_num +decide [c3w_trades]) (by norm_num [c3w_trades])

lemma dictSet_mem {m : List (String × ℚ)} {k : String} {v : ℚ} {p : String × ℚ}
    (h : p ∈ dictSet m k v) : p.1 = k ∨ p ∈ m := by
  unfold dictSet at h
  split_ifs at h with hc
  · rw [List.mem_map] at h
    obtain ⟨q, hq, hpq⟩ := h
    by_cases hqk : q.1 = k
    · rw [if_pos hqk] at hpq
      left
      rw [← hpq]
    · rw [if_neg hqk] at hpq
      right
      rw [← hpq]
      exact hq
  · rw [List.mem_append] at h
    rcases h with h | h
    · right
      exact h
    · left
      rcases List.mem_singleton.mp h with rfl
      rfl

lemma typeGetD_sell {t : Trade} (h : t.type.getD "" = "SELL") : t.type = some "SELL" := by
  cases ht : t.type with
  | none =>
    rw [ht] at h
    exact absurd h (by decide)
  | some s =>
    rw [ht] at h
    simp only [Option.getD_some] at h
    rw [h]

lemma pnlStep_key_src {st : List (String × ℚ) × List (String × ℚ) × List (String × ℚ)}
    {t : Trade} {p : String × ℚ} (hp : p ∈ (pnlStep st t).2.2) :
    p ∈ st.2.2 ∨ (t.type = some "SELL" ∧ p.1 = t.id.getD "") := by
  obtain ⟨units, cost_basis, result⟩ := st
  simp only [pnlStep] at hp
  by_cases hb1 : t.asset.getD "" = "USD" ∨
      ¬(t.type.getD "" = "BUY" ∨ t.type.getD "" = "SELL" ∨ t.type.getD "" = "Transfer")
  · rw [if_pos hb1] at hp
    by_cases hb2 : t.type.getD "" = "SELL" ∧ t.asset.getD "" ≠ "" ∧ t.id.getD "" ≠ ""
    · rw [if_pos hb2] at hp
      simp only at hp
      rcases dictSet_mem hp with h | h
      · exact Or.inr ⟨typeGetD_sell hb2.1, h⟩
      · exact Or.inl h
    · rw [if_neg hb2] at hp
      exact Or.inl hp
  · rw [if_neg hb1] at hp
    by_cases hb3 : t.type.getD "" = "BUY" ∨ t.type.getD "" = "Transfer"
    · rw [if_pos hb3] at hp
      exact Or.inl hp
    · rw [if_neg hb3] at hp
      have htS : t.type.getD "" = "SELL" := by
        push_neg at hb1 hb3
        tauto
      by_cases hu : dictGet units (t.asset.getD "") ≤ 0
      · rw [if_pos hu] at hp
        rcases dictSet_mem hp with h | h
        · exact Or.inr ⟨typeGetD_sell htS, h⟩
        · exact Or.inl h
      · rw [if_neg hu] at hp
        simp only at hp
        rcases dictSet_mem hp with h | h
        · exact Or.inr ⟨typeGetD_sell htS, h⟩
        · exact Or.inl h

/-- C8 amended: every key of the map returned by
`compute_realized_pnl_per_trade` is the id of some SELL trade of the input —
entries only for SELL trades. The USD exclusion, however, holds only for
non-SELL USD trades: a USD SELL with a nonempty id receives a `0.0` entry
(see the counterexample). -/
theorem C8_amended (trades : List Trade) (method : String) (M : List (String × ℚ))
    (hok : compute_realized_pnl_per_trade trades method = .ok M) :
    ∀ p ∈ M, ∃ t ∈ trades, t.type = some "SELL" ∧ p.1 = t.id.getD "" := by
  simp only [compute_realized_pnl_per_trade] at hok
  by_cases h1 : (trades.any fun t => t.date.isNone) = true
  · rw [if_pos h1] at hok
    cases hok
  · rw [if_neg h1, Except.ok.injEq] at hok
    subst hok
    refine foldl_inv (f := pnlStep)
      (P := fun st => ∀ p ∈ st.2.2, ∃ t ∈ trades, t.type = some "SELL" ∧ p.1 = t.id.getD "")
      (Q := fun t => t ∈ trades) ?_ _ (fun t ht => mem_sortTrades.mp ht)
      (([], [], []) : List (String × ℚ) × List (String × ℚ) × List (String × ℚ))
      (fun p hp => absurd hp (List.not_mem_nil p))
    intro s a hP hQ p hp
    rcases pnlStep_key_src hp with h | h
    · exact hP p h
    · exact ⟨a, hQ, h.1, h.2⟩

/-- C8 witness: the amended claim applied to a concrete single non-USD SELL,
whose entry key is that SELL's id. -/
theorem C8_witness :
    ∃ t ∈ c8w_trades, t.type = some "SELL" ∧ ("s1", (0 : ℚ)).1 = t.id.getD "" :=
  C8_amended c8w_trades "average" [("s1", 0)] rfl ("s1", 0) (by simp)

lemma fifo_two_eval (a idb db ids ds : String) (qb pb tvb fb qs ps tvs fs : ℚ)
    (hqb : 0 < qb) (hqs : 0 < qs) (hlt : qs < qb) (hcost : 0 < tvb + fb)
    (hdate : strLe db ds = true) :
    calculate_cost_basis_fifo (twoTradeHist a idb db ids ds qb pb tvb fb qs ps tvs fs) a =
      ((tvb + fb) - qs * ((tvb + fb) / qb), qb - qs,
        [{ quantity := qb - qs, cost_per_unit := (tvb + fb) / qb,
           trade_id := some idb, date := db }]) := by
  have hqne : qb ≠ 0 := ne_of_gt hqb
  have hcpu : 0 < (tvb + fb) / qb := div_pos hcost hqb
  have hns : ¬ qs ≤ 0 := not_le.mpr hqs
  have hnq : ¬ qb ≤ qs := not_le.mpr hlt
  simp [calculate_cost_basis_fifo, twoTradeHist, simpleBuy, simpleSell, sortTrades,
    insertionSortB, orderedInsertB, sortKey, hdate, lotLedgerStep, consumeFifo,
    hqne, hcpu, hqb, hns, hnq]

lemma lifo_two_eval (a idb db ids ds : String) (qb pb tvb fb qs ps tvs fs : ℚ)
    (hqb : 0 < qb) (hqs : 0 < qs) (hlt : qs < qb) (hcost : 0 < tvb + fb)
    (hdate : strLe db ds = true) :
    calculate_cost_basis_lifo (twoTradeHist a idb db ids ds qb pb tvb fb qs ps tvs fs) a =
      ((tvb + fb) - qs * ((tvb + fb) / qb), qb - qs,
        [{ quantity := qb - qs, cost_per_unit := (tvb + fb) / qb,
           trade_id := some idb, date := db }]) := by
  have hqne : qb ≠ 0 := ne_of_gt hqb
  have hcpu : 0 < (tvb + fb) / qb := div_pos hcost hqb
  have hns : ¬ qs ≤ 0 := not_le.mpr hqs
  have hnq : ¬ qb ≤ qs := not_le.mpr hlt
  simp [calculate_cost_basis_lifo, twoTradeHist, simpleBuy, simpleSell, sortTrades,
    insertionSortB, orderedInsertB, sortKey, hdate, lotLedgerStep, consumeFifo,
    consumeLifo, hqne, hcpu, hqb, hns, hnq]

lemma avg_two_eval (a idb db ids ds : String) (qb pb tvb fb qs ps tvs fs : ℚ)
    (hqb : 0 < qb) (hlt : qs < qb) (hdate : strLe db ds = true) :
    calculate_cost_basis_average (twoTradeHist a idb db ids ds qb pb tvb fb qs ps tvs fs) a =
      ((qb - qs) * ((tvb + fb) / qb), qb - qs,
        [{ quantity := qb - qs,
           cost_per_unit := (qb - qs) * ((tvb + fb) / qb) / (qb - qs),
           trade_id := some "average", date := "average" }]) := by
  have hqne : qb ≠ 0 := ne_of_gt hqb
  have hpos : 0 < qb - qs := sub_pos.mpr hlt
  simp [calculate_cost_basis_average, twoTradeHist, simpleBuy, simpleSell, sortTrades,
    insertionSortB, orderedInsertB, sortKey, hdate, avgStep, hqne, hpos]

/-- C4 amended: for one BUY followed by one strictly smaller SELL of the same
asset, with a positive acquisition cost (`total_value + fee > 0` on the BUY —
a zero-cost buy breaks the agreement, see the counterexample), FIFO, LIFO and
Average return identical `cost_basis` and identical `units_held`, and the
realized P&L the aggregator derives from them is identical. -/
theorem C4_amended (a idb db ids ds : String) (qb pb tvb fb qs ps tvs fs : ℚ)
    (lk : String → Option ℚ)
    (hqb : 0 < qb) (hqs : 0 < qs) (hlt : qs < qb) (hcost : 0 < tvb + fb)
    (hdate : strLe db ds = true) :
    (calculate_cost_basis_fifo (twoTradeHist a idb db ids ds qb pb tvb fb qs ps tvs fs) a).1 =
        (calculate_cost_basis_average (twoTradeHist a idb db ids ds qb pb tvb fb qs ps tvs fs) a).1 ∧
      (calculate_cost_basis_lifo (twoTradeHist a idb db ids ds qb pb tvb fb qs ps tvs fs) a).1 =
        (calculate_cost_basis_average (twoTradeHist a idb db ids ds qb pb tvb fb qs ps tvs fs) a).1 ∧
      (calculate_cost_basis_fifo (twoTradeHist a idb db ids ds qb pb tvb fb qs ps tvs fs) a).2.1 =
        (calculate_cost_basis_average (twoTradeHist a idb db ids ds qb pb tvb fb qs ps tvs fs) a).2.1 ∧
      (calculate_cost_basis_lifo (twoTradeHist a idb db ids ds qb pb tvb fb qs ps tvs fs) a).2.1 =
        (calculate_cost_basis_average (twoTradeHist a idb db ids ds qb pb tvb fb qs ps tvs fs) a).2.1 ∧
      (mkPerAsset "fifo" lk (twoTradeHist a idb db ids ds qb pb tvb fb qs ps tvs fs) a).realized_pnl =
        (mkPerAsset "average" lk (twoTradeHist a idb db ids ds qb pb tvb fb qs ps tvs fs) a).realized_pnl ∧
      (mkPerAsset "lifo" lk (twoTradeHist a idb db ids ds qb pb tvb fb qs ps tvs fs) a).realized_pnl =
        (mkPerAsset "average" lk (twoTradeHist a idb db ids ds qb pb tvb fb qs ps tvs fs) a).realized_pnl := by
  have hqne : qb ≠ 0 := ne_of_gt hqb
  have hf := fifo_two_eval a idb db ids ds qb pb tvb fb qs ps tvs fs hqb hqs hlt hcost hdate
  have hl := lifo_two_eval a idb db ids ds qb pb tvb fb qs ps tvs fs hqb hqs hlt hcost hdate
  have ha := avg_two_eval a idb db ids ds qb pb tvb fb qs ps tvs fs hqb hlt hdate
  have hc : (tvb + fb) - qs * ((tvb + fb) / qb) = (qb - qs) * ((tvb + fb) / qb) := by
    field_simp
    ring
  have h1 : (calculate_cost_basis_fifo (twoTradeHist a idb db ids ds qb pb tvb fb qs ps tvs fs) a).1 =
      (calculate_cost_basis_average (twoTradeHist a idb db ids ds qb pb tvb fb qs ps tvs fs) a).1 := by
    rw [hf, ha]
    exact hc
  have h2 : (calculate_cost_basis_lifo (twoTradeHist a idb db ids ds qb pb tvb fb qs ps tvs fs) a).1 =
      (calculate_cost_basis_average (twoTradeHist a idb db ids ds qb pb tvb fb qs ps tvs fs) a).1 := by
    rw [hl, ha]
    exact hc
  refine ⟨h1, h2, ?_, ?_, ?_, ?_⟩
  · rw [hf, ha]
  · rw [hl, ha]
  · simp only [mkPerAsset, costBasisByMethod]
    norm_num +decide
    rw [h1]
  · simp only [mkPerAsset, costBasisByMethod]
    norm_num +decide
    rw [h2]

/-- C4 witness: the amended method-agreement claim at a concrete instance
(BUY 2 units at total 100 fee 1, then SELL 1 unit). -/
theorem C4_witness :
    (calculate_cost_basis_fifo (twoTradeHist "X" "b" "1" "s" "2" 2 50 100 1 1 60 60 0) "X").1 =
        (calculate_cost_basis_average (twoTradeHist "X" "b" "1" "s" "2" 2 50 100 1 1 60 60 0) "X").1 ∧
      (calculate_cost_basis_lifo (twoTradeHist "X" "b" "1" "s" "2" 2 50 100 1 1 60 60 0) "X").1 =
        (calculate_cost_basis_average (twoTradeHist "X" "b" "1" "s" "2" 2 50 100 1 1 60 60 0) "X").1 ∧
      (calculate_cost_basis_fifo (twoTradeHist "X" "b" "1" "s" "2" 2 50 100 1 1 60 60 0) "X").2.1 =
        (calculate_cost_basis_average (twoTradeHist "X" "b" "1" "s" "2" 2 50 100 1 1 60 60 0) "X").2.1 ∧
      (calculate_cost_basis_lifo (twoTradeHist "X" "b" "1" "s" "2" 2 50 100 1 1 60 60 0) "X").2.1 =
        (calculate_cost_basis_average (twoTradeHist "X" "b" "1" "s" "2" 2 50 100 1 1 60 60 0) "X").2.1 ∧
      (mkPerAsset "fifo" (fun _ => none) (twoTradeHist "X" "b" "1" "s" "2" 2 50 100 1 1 60 60 0) "X").realized_pnl =
        (mkPerAsset "average" (fun _ => none) (twoTradeHist "X" "b" "1" "s" "2" 2 50 100 1 1 60 60 0) "X").realized_pnl ∧
      (mkPerAsset "lifo" (fun _ => none) (twoTradeHist "X" "b" "1" "s" "2" 2 50 100 1 1 60 60 0) "X").realized_pnl =
        (mkPerAsset "average" (fun _ => none) (twoTradeHist "X" "b" "1" "s" "2" 2 50 100 1 1 60 60 0) "X").realized_pnl :=
  C4_amended "X" "b" "1" "s" "2" 2 50 100 1 1 60 60 0 (fun _ => none)
    (by norm_num) (by norm_num) (by norm_num) (by norm_num) (by decide)

/-- C5 amended: after `BUY(q1)` then `SELL(q1)` of the same asset with zero
fees and a positive buy cost (`total_value > 0` — a zero-cost buy breaks it
for FIFO/LIFO, see the counterexample), `units_held` is `0` under all three
methods. -/
theorem C5_amended (a idb db ids ds : String) (q1 pb tvb ps tvs : ℚ)
    (hq : 0 < q1) (htv : 0 < tvb) (hdate : strLe db ds = true) :
    (calculate_cost_basis_fifo (twoTradeHist a idb db ids ds q1 pb tvb 0 q1 ps tvs 0) a).2.1 = 0 ∧
      (calculate_cost_basis_lifo (twoTradeHist a idb db ids ds q1 pb tvb 0 q1 ps tvs 0) a).2.1 = 0 ∧
      (calculate_cost_basis_average (twoTradeHist a idb db ids ds q1 pb tvb 0 q1 ps tvs 0) a).2.1 = 0 := by
  have hqne : q1 ≠ 0 := ne_of_gt hq
  have hcpu : 0 < tvb / q1 := div_pos htv hq
  have hns : ¬ q1 ≤ 0 := not_le.mpr hq
  refine ⟨?_, ?_, ?_⟩
  · simp [calculate_cost_basis_fifo, twoTradeHist, simpleBuy, simpleSell, sortTrades,
      insertionSortB, orderedInsertB, sortKey, hdate, lotLedgerStep, consumeFifo,
      hqne, hcpu, hq, hns]
  · simp [calculate_cost_basis_lifo, twoTradeHist, simpleBuy, simpleSell, sortTrades,
      insertionSortB, orderedInsertB, sortKey, hdate, lotLedgerStep, consumeFifo,
      consumeLifo, hqne, hcpu, hq, hns]
  · simp [calculate_cost_basis_average, twoTradeHist, simpleBuy, simpleSell, sortTrades,
      insertionSortB, orderedInsertB, sortKey, hdate, avgStep, hqne, hq]

/-- C5 witness: the amended units-conservation claim at a concrete instance
(BUY 3 units at total 30, then SELL all 3). -/
theorem C5_witness :
    (calculate_cost_basis_fifo (twoTradeHist "X" "b" "1" "s" "2" 3 10 30 0 3 12 36 0) "X").2.1 = 0 ∧
      (calculate_cost_basis_lifo (twoTradeHist "X" "b" "1" "s" "2" 3 10 30 0 3 12 36 0) "X").2.1 = 0 ∧
      (calculate_cost_basis_average (twoTradeHist "X" "b" "1" "s" "2" 3 10 30 0 3 12 36 0) "X").2.1 = 0 :=
  C5_amended "X" "b" "1" "s" "2" 3 10 30 12 36 (by norm_num) (by norm_num) (by decide)
